import Mathlib

/-!
Verification of the fastbot runtime (connection/RPC multiplexer, event model,
plugin pipeline, matcher algebra, message-segment container) against its
natural-language specification.  Python sources are shallowly embedded:
dictionaries become association lists, exceptions become an `Except` channel,
the circular doubly linked `Link` container is represented by its iteration
order together with its optional maximum length.
-/

namespace Fastbot

/-- Python exception values that the embedded code can raise. -/
inductive PyErr where
  | keyError (key : String)
  | indexError (msg : String)
  | typeError (msg : String)
  | valueError (msg : String)
  | runtimeError (msg : String)
  | invalidStateError
  deriving DecidableEq, Repr

/-- JSON-ish scalar values carried in wire frames (`fastbot.event.Context`
values).  Composite payloads that no modelled operation inspects are left out. -/
inductive Val where
  | none
  | bool (b : Bool)
  | int (n : Int)
  | str (s : String)
  deriving DecidableEq, Repr

/-- A decoded JSON object (`Context: TypeAlias = Dict[str, Any]`), as an
association list; lookups take the first binding, mirroring a dict's unique
keys. -/
abbrev Ctx : Type := List (String × Val)

/-- `ctx.get(k)` without default: `Option`-valued lookup. -/
def lookupKey (ctx : Ctx) (k : String) : Option Val :=
  (ctx.find? (fun p => p.1 == k)).map (fun p => p.2)

/-- `ctx[k]`: raises `KeyError` when the key is absent. -/
def getItem (ctx : Ctx) (k : String) : Except PyErr Val :=
  match lookupKey ctx k with
  | some v => .ok v
  | Option.none => .error (.keyError k)

/-- `k in ctx`. -/
def containsKey (ctx : Ctx) (k : String) : Bool :=
  ctx.any (fun p => p.1 == k)

/-- `ctx.get(k)` with Python's `None` default. -/
def getDefault (ctx : Ctx) (k : String) : Val :=
  (lookupKey ctx k).getD .none

/-- True exactly when the result is a raised exception; used to state that an
operation does or does not fail. -/
def raisesError {A : Type} : Except PyErr A → Bool
  | .error _ => true
  | .ok _ => false

instance {E A : Type} [DecidableEq E] [DecidableEq A] :
    DecidableEq (Except E A) := fun x y =>
  match x, y with
  | .ok a, .ok b =>
      if h : a = b then .isTrue (by rw [h]) else .isFalse (by
        intro hc
        exact h (Except.ok.inj hc))
  | .error a, .error b =>
      if h : a = b then .isTrue (by rw [h]) else .isFalse (by
        intro hc
        exact h (Except.error.inj hc))
  | .ok _, .error _ => .isFalse (by intro hc; exact Except.noConfusion hc)
  | .error _, .ok _ => .isFalse (by intro hc; exact Except.noConfusion hc)

/-! ## fastbot/message.py — the `Link` container -/

/-- `fastbot.message.Link`: the circular doubly linked container, represented
by its iteration order (`items`) and its optional maximum length (`maxlen`).
The sentinel node and the prev/next pointers are abstracted away; each pointer
manipulation in the source is translated by the position it touches. -/
@[ext] structure Link (α : Type) where
  items : List α
  maxlen : Option Nat
  deriving DecidableEq

/-- `Link.appendleft`: at maximum length the opposite (right) end is evicted
first (`self.pop()`), then the value is linked in at the front. -/
def Link.appendleft {α : Type} (l : Link α) (v : α) : Link α :=
  match l.maxlen with
  | some m => if l.items.length = m
      then ⟨v :: l.items.dropLast, l.maxlen⟩
      else ⟨v :: l.items, l.maxlen⟩
  | Option.none => ⟨v :: l.items, l.maxlen⟩

/-- `Link.append`: at maximum length the left end is evicted first
(`self.popleft()`), then the value is linked in at the back. -/
def Link.append {α : Type} (l : Link α) (v : α) : Link α :=
  match l.maxlen with
  | some m => if l.items.length = m
      then ⟨l.items.tail ++ [v], l.maxlen⟩
      else ⟨l.items ++ [v], l.maxlen⟩
  | Option.none => ⟨l.items ++ [v], l.maxlen⟩

/-- One step of the first loop in `Link.rotate`: the node before the sentinel
(the last element) is relinked directly after the sentinel (to the front). -/
def moveLastToFront {α : Type} (xs : List α) : List α :=
  match xs.getLast? with
  | some a => a :: xs.dropLast
  | Option.none => xs

/-- One step of the second loop in `Link.rotate`: the node after the sentinel
(the first element) is relinked directly before the sentinel (to the back). -/
def moveFirstToBack {α : Type} : List α → List α
  | [] => []
  | x :: xs => xs ++ [x]

/-- `Link.rotate(n)`: on a zero-length container return immediately; reduce
`n` modulo the length (Python `%` keeps the sign of the positive divisor, so
the source's `if n < 0: n += length` fix-up is unreachable); if the reduced
amount is 0 return; otherwise walk from whichever end is closer: `n` steps
moving the last node to the front, or `length - n` steps moving the first node
to the back. -/
def Link.rotate {α : Type} (l : Link α) (n : Int) : Link α :=
  let length := l.items.length
  if length = 0 then l
  else
    let n1 := n % (length : Int)
    if n1 = 0 then l
    else
      let k := n1.toNat
      if k ≤ length / 2 then ⟨moveLastToFront^[k] l.items, l.maxlen⟩
      else ⟨moveFirstToBack^[length - k] l.items, l.maxlen⟩

/-- Splicing a fresh node holding `v` in directly after the node at position
`j` (the effect of the pointer assignments at the end of `Link.insert`). -/
def spliceAfter {α : Type} (xs : List α) (j : Nat) (v : α) : List α :=
  xs.take (j + 1) ++ v :: xs.drop (j + 1)

/-- `Link.insert(idx, value)`: bounds check (`IndexError` outside
`[-length, length)`), maximum-length check, then: for `idx == 0` the source
first calls `appendleft(value)` and — lacking an early return — falls through
to the splice code, whose pointer walk lands on the new head node (position 0
of the grown list) and splices a second copy in after it; for negative `idx`
the source adds the length, and the pointer walk from either end lands on the
node at that position, after which the new node is spliced in. -/
def Link.insert {α : Type} (l : Link α) (idx : Int) (v : α) :
    Except PyErr (Link α) :=
  if ¬(-(l.items.length : Int) ≤ idx ∧ idx < (l.items.length : Int)) then
    .error (.indexError "index out of range")
  else if l.maxlen = some l.items.length then
    .error (.indexError "list has reached its maximum length")
  else if idx = 0 then
    let l1 := l.appendleft v
    .ok ⟨spliceAfter l1.items 0 v, l.maxlen⟩
  else
    let j : Nat := (if idx < 0 then idx + (l.items.length : Int) else idx).toNat
    .ok ⟨spliceAfter l.items j v, l.maxlen⟩

/-- The spec's reading of `rotate`: a right rotation by `k` positions, the
last `k` elements moving to the front. -/
def rotateRightSpec {α : Type} (k : Nat) (xs : List α) : List α :=
  xs.drop (xs.length - k) ++ xs.take (xs.length - k)

/-! ## fastbot/message.py — segments and `Message` construction -/

/-- `fastbot.message.MessageSegment`: a type tag plus a key/value payload
map. -/
structure MessageSegment where
  type : String
  data : List (String × Val)
  deriving DecidableEq, Repr

/-- `MessageSegment.text`: the named constructor fixing the `"text"` tag. -/
def MessageSegment.text (t : String) : MessageSegment :=
  ⟨"text", [("text", .str t)]⟩

/-- The heterogeneous `content` argument of `Message.__init__`: `None`, a
string, a single segment, an iterable of further content (its Python
truthiness is emptiness), or a value of any other type, of which only the
truthiness is ever inspected (`isinstance` matches no branch for it). -/
inductive Content where
  | pynone
  | str (s : String)
  | seg (s : MessageSegment)
  | list (xs : List Content)
  | unsupported (truthy : Bool)

mutual
/-- `Message.__init__(content)`: falsy content contributes nothing; a segment
is appended; a string is appended as one text segment; an iterable is
flattened by recursively constructing a `Message` from each element and
chaining the results; any other type matches no `isinstance` branch, so
nothing is appended and nothing is raised.  The `Except` channel carries any
exception the body would raise — this body raises none. -/
def messageInit : Content → Except PyErr (List MessageSegment)
  | .pynone => .ok []
  | .seg s => .ok [s]
  | .str s => .ok (if s.isEmpty then [] else [MessageSegment.text s])
  | .list xs => if xs.isEmpty then .ok [] else messageInitList xs
  | .unsupported _ => .ok []

/-- `chain.from_iterable(Message(item) for item in content)`: the recursive
constructions, concatenated in order. -/
def messageInitList : List Content → Except PyErr (List MessageSegment)
  | [] => .ok []
  | c :: cs => do
      let h ← messageInit c
      let t ← messageInitList cs
      .ok (h ++ t)
end

/-- `itertools.groupby(self, key=...)`: maximal runs of consecutive elements
sharing a key, in order (key equality is transitive, so an element belongs to
the current run exactly when its key equals the next element's). -/
def groupRuns {α : Type} (key : α → String) : List α → List (List α)
  | [] => []
  | [a] => [[a]]
  | a :: b :: rest =>
      match groupRuns key (b :: rest) with
      | g :: gs => if key a == key b then (a :: g) :: gs else [a] :: g :: gs
      | [] => [[a]]

/-- `segment.data["text"]` as consumed by `str.join`: `KeyError` when the
key is absent, `TypeError` when the value is not a string. -/
def segText (s : MessageSegment) : Except PyErr String :=
  match (s.data.find? (fun p => p.1 == "text")).map (fun p : String × Val => p.2) with
  | some (.str t) => .ok t
  | some _ => .error (.typeError "sequence item: expected str instance")
  | Option.none => .error (.keyError "text")

/-- `Message.compact(concat)`: group the sequence into runs of equal tags;
a `"text"` run becomes a single text segment joining the runs' text payloads
with `concat`; any other run is passed through as-is; the pieces are then fed
to the `Message` constructor, which flattens them in order. -/
def messageCompact (concat : String) (items : List MessageSegment) :
    Except PyErr (List MessageSegment) := do
  let parts ← (groupRuns (fun s => s.type) items).mapM (fun grp =>
    if grp.head?.map (fun s => s.type) = some "text" then do
      let ts ← grp.mapM segText
      pure (Content.seg (MessageSegment.text (String.intercalate concat ts)))
    else
      pure (Content.list (grp.map Content.seg)))
  messageInit (.list parts)

/-! ## fastbot/matcher.py — the matcher algebra -/

/-- `fastbot.matcher.Matcher`: a leaf rule (possibly raising, hence the
`Except` channel) together with an optional combinator operator over
sub-matchers.  A leaf has `operator = None`; `and`/`or` nodes carry their
sub-matchers and ignore the (defaulted) rule. -/
inductive Matcher (Ev : Type) where
  | mk (rule : Ev → Except PyErr Bool) (matchers : List (Matcher Ev))
      (operator : Option String)

mutual
/-- `Matcher.__call__`: the whole body runs inside `try/except`; any raise —
from the leaf rule or from the invalid-operator `ValueError` — is caught,
logged and turned into `False`. -/
def Matcher.call {Ev : Type} : Matcher Ev → Ev → Except PyErr Bool
  | .mk rule matchers operator, e =>
      match
        (match operator with
          | some op =>
              if op = "and" then Matcher.callAll matchers e
              else if op = "or" then Matcher.callAny matchers e
              else Except.error (PyErr.valueError "Invalid operator")
          | Option.none => rule e)
      with
      | .ok b => .ok b
      | .error _ => .ok false

/-- `all(matcher(*args) for matcher in self.matchers)`: short-circuiting
conjunction over the (exception-handled) sub-matcher calls; a raise inside a
sub-call would propagate to the enclosing handler. -/
def Matcher.callAll {Ev : Type} : List (Matcher Ev) → Ev → Except PyErr Bool
  | [], _ => .ok true
  | m :: ms, e =>
      match Matcher.call m e with
      | .ok b => if b then Matcher.callAll ms e else .ok false
      | .error err => .error err

/-- `any(matcher(*args) for matcher in self.matchers)`: short-circuiting
disjunction. -/
def Matcher.callAny {Ev : Type} : List (Matcher Ev) → Ev → Except PyErr Bool
  | [], _ => .ok false
  | m :: ms, e =>
      match Matcher.call m e with
      | .ok b => if b then .ok true else Matcher.callAny ms e
      | .error err => .error err
end

/-! ## fastbot/event — the typed event hierarchy -/

/-- The result of `Event.build_from`: a generic event of some level of the
hierarchy (carrying exactly the fields the source passes at that level), or a
delegated construction of a registered concrete variant, represented by the
class it dispatches to (the claims under verification only concern the
generic fall-back paths, so concrete dataclass construction is not modelled
further). -/
inductive BuiltEvent where
  | generic (ctx : Ctx) (time self_id post_type : Val)
  | genericMessage (ctx : Ctx) (time self_id post_type message_type : Val)
  | genericNotice (ctx : Ctx) (time self_id notice_type : Val)
  | genericRequest (ctx : Ctx) (time self_id request_type : Val)
  | genericMeta (ctx : Ctx) (time self_id meta_event_type : Val)
  | concrete (cls : String) (ctx : Ctx)
  deriving DecidableEq

/-- `MessageEvent.subcalsses()`: the registered `message_type` discriminators
and the concrete classes they dispatch to. -/
def messageRegistry : List (String × String) :=
  [("private", "PrivateMessageEvent"), ("group", "GroupMessageEvent")]

/-- `NoticeEvent.subcalsses()`. -/
def noticeRegistry : List (String × String) :=
  [("group_upload", "GroupFileUploadNoticeEvent"),
   ("group_admin", "GroupAdminChangeNoticeEvent"),
   ("group_decrease", "GroupMemberDecreaseNoticeEvent"),
   ("group_increase", "GroupMemberIncreaseNoticeEvent"),
   ("group_ban", "GroupBanNoticeEvent"),
   ("friend_add", "FriendAddNoticeEvent"),
   ("group_recall", "GroupMessageRecallNoticeEvent"),
   ("friend_recall", "FriendMessageRecallNoticeEvent")]

/-- `RequestEvent.subcalsses()`. -/
def requestRegistry : List (String × String) :=
  [("friend", "FriendRequestEvent"), ("group", "GroupRequestEvent")]

/-- `MetaEvent.subcalsses()`. -/
def metaRegistry : List (String × String) :=
  [("lifecycle", "LifecycleMetaEvent"), ("heartbeat", "HeartbeatMetaEvent")]

/-- `registry.get(discriminator)`: a registry lookup keyed by the raw
discriminator value; only string keys are registered. -/
def registryGet (registry : List (String × String)) (v : Val) : Option String :=
  match v with
  | .str s => (registry.find? (fun p => p.1 == s)).map (fun p => p.2)
  | _ => Option.none

/-- `MessageEvent.build_from(ctx)`: dispatch on `ctx["message_type"]`; with no
registered variant, fall back to the generic `MessageEvent` retaining time,
identity, category and subtype. -/
def MessageEvent.build_from (ctx : Ctx) : Except PyErr BuiltEvent := do
  let mt ← getItem ctx "message_type"
  match registryGet messageRegistry mt with
  | some cls => .ok (.concrete cls ctx)
  | Option.none => do
      let t ← getItem ctx "time"
      let sid ← getItem ctx "self_id"
      let pt ← getItem ctx "post_type"
      .ok (.genericMessage ctx t sid pt mt)

/-- `NoticeEvent.build_from(ctx)`. -/
def NoticeEvent.build_from (ctx : Ctx) : Except PyErr BuiltEvent := do
  let nt ← getItem ctx "notice_type"
  match registryGet noticeRegistry nt with
  | some cls => .ok (.concrete cls ctx)
  | Option.none => do
      let t ← getItem ctx "time"
      let sid ← getItem ctx "self_id"
      .ok (.genericNotice ctx t sid nt)

/-- `RequestEvent.build_from(ctx)`. -/
def RequestEvent.build_from (ctx : Ctx) : Except PyErr BuiltEvent := do
  let rt ← getItem ctx "request_type"
  match registryGet requestRegistry rt with
  | some cls => .ok (.concrete cls ctx)
  | Option.none => do
      let t ← getItem ctx "time"
      let sid ← getItem ctx "self_id"
      .ok (.genericRequest ctx t sid rt)

/-- `MetaEvent.build_from(ctx)`. -/
def MetaEvent.build_from (ctx : Ctx) : Except PyErr BuiltEvent := do
  let mt ← getItem ctx "meta_event_type"
  match registryGet metaRegistry mt with
  | some cls => .ok (.concrete cls ctx)
  | Option.none => do
      let t ← getItem ctx "time"
      let sid ← getItem ctx "self_id"
      .ok (.genericMeta ctx t sid mt)

/-- `Event.build_from(ctx)`: dispatch on `ctx["post_type"]` through
`Event.subcalsses()` (`MessageEvent`, `NoticeEvent`, `RequestEvent`,
`MetaEvent`); with no registered category, fall back to the generic `Event`
retaining time, identity and category. -/
def Event.build_from (ctx : Ctx) : Except PyErr BuiltEvent := do
  let pt ← getItem ctx "post_type"
  if pt = .str "message" then MessageEvent.build_from ctx
  else if pt = .str "notice" then NoticeEvent.build_from ctx
  else if pt = .str "request" then RequestEvent.build_from ctx
  else if pt = .str "meta_event" then MetaEvent.build_from ctx
  else do
    let t ← getItem ctx "time"
    let sid ← getItem ctx "self_id"
    .ok (.generic ctx t sid pt)

/-! ## fastbot/bot.py — the connection/RPC multiplexer -/

/-- The state of one `asyncio.Future` in `FastBot.futures`: pending, resolved
with `set_result(ctx.get("data"))`, or resolved with
`set_exception(RuntimeError(ctx))`. -/
inductive FutureState where
  | pending
  | doneOk (v : Val)
  | doneErr (ctx : Ctx)
  deriving DecidableEq

/-- `FastBot.futures`: the pending-call registry, token → future state. -/
abbrev Registry : Type := List (Int × FutureState)

/-- `cls.futures[t]` as a lookup. -/
def lookupFut (futures : Registry) (t : Int) : Option FutureState :=
  (futures.find? (fun p => p.1 == t)).map (fun p : Int × FutureState => p.2)

/-- Resolving the future stored under `t` (the dict entry itself stays). -/
def setFut (futures : Registry) (t : Int) (s : FutureState) : Registry :=
  futures.map (fun p => if p.1 == t then (p.1, s) else p)

/-- `del cls.futures[t]`. -/
def eraseFut (futures : Registry) (t : Int) : Registry :=
  futures.filter (fun p => p.1 != t)

/-- What `FastBot.event_handler` did with a frame: handed it to the plugin
pipeline, resolved a pending call (normally or exceptionally), or caught and
logged an exception. -/
inductive HAction where
  | dispatched
  | resolvedOk (token : Int)
  | resolvedErr (token : Int)
  | logged (e : PyErr)
  deriving DecidableEq

/-- The `str()` of a value, for `KeyError` payloads. -/
def valRepr : Val → String
  | .none => "None"
  | .bool b => if b then "True" else "False"
  | .int n => toString n
  | .str s => s

/-- `FastBot.event_handler(ctx)`: a frame containing `"post_type"` goes to
`PluginManager.run`; any other frame is treated as a response — `ctx["status"]`
is compared to `"ok"`, `cls.futures[ctx["echo"]]` is looked up and resolved
with the data or with `RuntimeError(ctx)`; every raise (missing key, unknown
token, already-resolved future) is caught by the surrounding handler and
logged. -/
def event_handler (futures : Registry) (ctx : Ctx) : Registry × HAction :=
  if containsKey ctx "post_type" then
    (futures, .dispatched)
  else
    match getItem ctx "status" with
    | .error e => (futures, .logged e)
    | .ok status =>
        match getItem ctx "echo" with
        | .error e => (futures, .logged e)
        | .ok echo =>
            match echo with
            | .int tok =>
                match lookupFut futures tok with
                | some .pending =>
                    if status = .str "ok" then
                      (setFut futures tok (.doneOk (getDefault ctx "data")),
                        .resolvedOk tok)
                    else
                      (setFut futures tok (.doneErr ctx), .resolvedErr tok)
                | some _ => (futures, .logged .invalidStateError)
                | Option.none => (futures, .logged (.keyError (valRepr echo)))
            | _ => (futures, .logged (.keyError (valRepr echo)))

/-- How the `await future` inside `FastBot.do` ends. -/
inductive AwaitOutcome where
  | result (v : Val)
  | exn
  | cancelled
  deriving DecidableEq

/-- Awaiting a future in a given state: a pending future blocks; a normally
resolved one returns its value; an exceptionally resolved one raises (the
`RuntimeError` carrying the response frame). -/
def awaitResult : FutureState → Option AwaitOutcome
  | .pending => Option.none
  | .doneOk v => some (.result v)
  | .doneErr _ => some .exn

/-- How a call to `FastBot.do` ends for its caller: a returned value (`None`
both when the remote data is null and when an exception was swallowed), a
propagated exception, or a propagated cancellation. -/
inductive DoResult where
  | ret (v : Val)
  | raised (e : PyErr)
  | cancelled
  deriving DecidableEq

/-- True exactly when the caller observes a raised error. -/
def raisesDo : DoResult → Bool
  | .raised _ => true
  | _ => false

/-- What `return await future` followed by the exception handler turns each
await outcome into: a value is returned, a raise is swallowed into a `None`
return, a cancellation propagates. -/
def outcomeResult : AwaitOutcome → DoResult
  | .result v => .ret v
  | .exn => .ret .none
  | .cancelled => .cancelled

/-- `FastBot.do(endpoint, self_id, kwargs)` (`do` is a Lean keyword, hence
`do_run`): a falsy `self_id` (None or 0) is replaced by the sole connected
identity, or `RuntimeError` is raised before any future is registered; then a
fresh future is registered under `token` (`id(future)`, fresh by
construction), the frame is sent on `connectors[self_id]` — an unknown
identity raises `KeyError` here — and the future is awaited; `except
Exception` catches and logs any of these raises, falling through to return
`None`, while a cancellation propagates; `finally` deletes the token
unconditionally. -/
def FastBot.do_run (connectors : List Int) (futures : Registry)
    (self_id : Option Int) (token : Int) (outcome : AwaitOutcome) :
    DoResult × Registry :=
  let proceed : Int → DoResult × Registry := fun i =>
    let futures1 := futures ++ [(token, FutureState.pending)]
    if i ∈ connectors then
      match outcome with
      | .result v => (.ret v, eraseFut futures1 token)
      | .exn => (.ret .none, eraseFut futures1 token)
      | .cancelled => (.cancelled, eraseFut futures1 token)
    else
      (.ret .none, eraseFut futures1 token)
  match (match self_id with
         | some i => if i = 0 then Option.none else some i
         | Option.none => Option.none) with
  | some i => proceed i
  | Option.none =>
      match connectors with
      | [c] => proceed c
      | _ => (.raised (.runtimeError "Parameter `self_id` must be specified"),
          futures)

/-! ## fastbot/plugin.py — middleware dispatch, both variants -/

/-- `PluginManager.run`'s middleware loop (the `src/src` variant): run the
merged, priority-ordered middleware in order; after each one, a falsy
(empty) payload returns immediately.  Middleware are modelled as pure payload
transformers carrying an observation label; the result is the final payload,
the labels of the middleware that ran, and whether the loop returned early. -/
def runMiddlewares : List (Nat × (Ctx → Ctx)) → Ctx → Ctx × List Nat × Bool
  | [], ctx => (ctx, [], false)
  | (i, f) :: rest, ctx =>
      let ctx1 := f ctx
      if ctx1.isEmpty then (ctx1, [i], true)
      else
        match runMiddlewares rest ctx1 with
        | (c2, ran, stopped) => (c2, i :: ran, stopped)

/-- `PluginManager.run(ctx)` (the `src/src` variant) up to event
construction: middleware loop, then — unless it returned early —
`Event.build_from(ctx)`; handlers only run after a successful build. -/
def pmRun (middlewares : List (Nat × (Ctx → Ctx))) (ctx : Ctx) :
    List Nat × Option (Except PyErr BuiltEvent) :=
  match runMiddlewares middlewares ctx with
  | (ctx1, ran, stopped) =>
      if stopped then (ran, Option.none)
      else (ran, some (Event.build_from ctx1))

/-- `PluginManager.event_hook` + `run` (the `src/fastbot` variant): every
preprocessor runs — there is no falsiness check on the payload — and event
construction is always attempted afterwards. -/
def eventHookRun (preprocessors : List (Nat × (Ctx → Ctx))) (ctx : Ctx) :
    List Nat × Option (Except PyErr BuiltEvent) :=
  let ctx1 := preprocessors.foldl (fun c p => p.2 c) ctx
  (preprocessors.map (fun p : Nat × (Ctx → Ctx) => p.1),
    some (Event.build_from ctx1))

/-! ## Lemmas about the `Link` container -/

lemma moveFirstToBack_eq_rotate {α : Type} (xs : List α) :
    moveFirstToBack xs = xs.rotate 1 := by
  cases xs with
  | nil => simp [moveFirstToBack]
  | cons a l => simp [moveFirstToBack, List.rotate_cons_succ]

lemma moveLastToFront_eq_rotate {α : Type} (xs : List α) :
    moveLastToFront xs = xs.rotate (xs.length - 1) := by
  rcases List.eq_nil_or_concat xs with rfl | ⟨ys, a, h⟩
  · simp [moveLastToFront]
  · rw [List.concat_eq_append] at h
    subst h
    rw [moveLastToFront, List.getLast?_concat, List.dropLast_concat]
    have hlen : (ys ++ [a]).length - 1 = ys.length := by simp
    rw [hlen, List.rotate_eq_drop_append_take (by simp), List.drop_left,
      List.take_left]
    rfl

lemma iterate_moveFirstToBack {α : Type} (xs : List α) (m : Nat) :
    moveFirstToBack^[m] xs = xs.rotate m := by
  induction m with
  | zero => simp
  | succ n ih =>
      rw [Function.iterate_succ_apply', ih, moveFirstToBack_eq_rotate,
        List.rotate_rotate]

lemma iterate_moveLastToFront {α : Type} (xs : List α) (k : Nat) :
    moveLastToFront^[k] xs = xs.rotate (k * (xs.length - 1)) := by
  induction k with
  | zero => simp
  | succ n ih =>
      rw [Function.iterate_succ_apply', ih, moveLastToFront_eq_rotate,
        List.length_rotate, List.rotate_rotate]
      congr 1
      ring

lemma mul_pred_mod (L k : Nat) (hk : 0 < k) (hkL : k < L) :
    (k * (L - 1)) % L = L - k := by
  have hL : 0 < L := lt_trans hk hkL
  have h1 : k * (L - 1) + k = k * L := by
    have hs : L - 1 + 1 = L := Nat.succ_pred_eq_of_pos hL
    calc k * (L - 1) + k = k * (L - 1 + 1) := by ring
    _ = k * L := by rw [hs]
  have h2 : (L - k) + k = L := Nat.sub_add_cancel (le_of_lt hkL)
  have hmod : (k * (L - 1) + k) % L = ((L - k) + k) % L := by
    rw [h1, h2]
    simp [Nat.mul_mod_left, Nat.mod_self]
  have hmodeq : k * (L - 1) ≡ L - k [MOD L] := Nat.ModEq.add_right_cancel' k hmod
  have heq : (k * (L - 1)) % L = (L - k) % L := hmodeq
  rw [heq, Nat.mod_eq_of_lt (by omega)]

lemma neg_emod_of_emod_zero (n : Int) (L : Int) (hz : n % L = 0) :
    (-n) % L = 0 := by
  have h1 : L ∣ n := Int.dvd_of_emod_eq_zero hz
  exact Int.emod_eq_zero_of_dvd (Dvd.dvd.neg_right h1)

lemma neg_emod_of_emod_ne_zero (n : Int) (L : Nat) (hL : 0 < L)
    (hz : n % (L : Int) ≠ 0) : (-n) % (L : Int) = (L : Int) - n % (L : Int) := by
  have hLpos : (0 : Int) < (L : Int) := by exact_mod_cast hL
  have hnn : 0 ≤ n % (L : Int) := Int.emod_nonneg n (ne_of_gt hLpos)
  have hlt : n % (L : Int) < (L : Int) := Int.emod_lt_of_pos n hLpos
  have hdm := Int.ediv_add_emod n (L : Int)
  have hrepr : -n = ((L : Int) - n % (L : Int)) + (L : Int) * (-(n / (L : Int)) - 1) := by
    linear_combination hdm
  rw [hrepr, Int.add_mul_emod_self_left]
  exact Int.emod_eq_of_lt (by omega) (by omega)

/-- Restating `Link.rotate` as a plain conditional, for rewriting. -/
lemma Link.rotate_eq {α : Type} (l : Link α) (n : Int) :
    l.rotate n =
      if l.items.length = 0 then l
      else if n % (l.items.length : Int) = 0 then l
      else if (n % (l.items.length : Int)).toNat ≤ l.items.length / 2 then
        ⟨moveLastToFront^[(n % (l.items.length : Int)).toNat] l.items, l.maxlen⟩
      else
        ⟨moveFirstToBack^[l.items.length - (n % (l.items.length : Int)).toNat]
          l.items, l.maxlen⟩ := rfl

/-- The net effect of `Link.rotate n` on the iteration order is a left
rotation by `(-n) mod length`, and the maximum length is untouched. -/
lemma Link.rotate_items_spec {α : Type} (l : Link α) (n : Int) :
    (l.rotate n).items = l.items.rotate (((-n) % (l.items.length : Int)).toNat) ∧
    (l.rotate n).maxlen = l.maxlen := by
  rw [Link.rotate_eq]
  by_cases h0 : l.items.length = 0
  · have hnil : l.items = [] := List.length_eq_zero.mp h0
    simp [h0, hnil]
  · have hL : 0 < l.items.length := Nat.pos_of_ne_zero h0
    have hLpos : (0 : Int) < (l.items.length : Int) := by exact_mod_cast hL
    by_cases hz : n % (l.items.length : Int) = 0
    · have hneg := neg_emod_of_emod_zero n (l.items.length : Int) hz
      simp [h0, hz, hneg]
    · have hnn : 0 ≤ n % (l.items.length : Int) := Int.emod_nonneg n (ne_of_gt hLpos)
      have hlt : n % (l.items.length : Int) < (l.items.length : Int) :=
        Int.emod_lt_of_pos n hLpos
      have hkpos : 0 < (n % (l.items.length : Int)).toNat := by omega
      have hkL : (n % (l.items.length : Int)).toNat < l.items.length := by omega
      have hneg := neg_emod_of_emod_ne_zero n l.items.length hL hz
      have hRHS : ((-n) % (l.items.length : Int)).toNat =
          l.items.length - (n % (l.items.length : Int)).toNat := by
        rw [hneg]
        omega
      rw [hRHS]
      by_cases hbr : (n % (l.items.length : Int)).toNat ≤ l.items.length / 2
      · simp only [h0, hz, hbr, if_false, if_true, ite_true, ite_false]
        refine ⟨?_, trivial⟩
        rw [iterate_moveLastToFront,
          ← List.rotate_mod l.items
            ((n % (l.items.length : Int)).toNat * (l.items.length - 1)),
          mul_pred_mod l.items.length (n % (l.items.length : Int)).toNat hkpos hkL]
      · simp only [h0, hz, hbr, if_false, if_true, ite_true, ite_false]
        refine ⟨?_, trivial⟩
        rw [iterate_moveFirstToBack]

/-- Claim C8: for every non-empty container and every integer `n`,
`rotate(n)` rotates right by `n mod length` (negative `n` rotates left;
rotating by 0 or on an empty container is a no-op), and `rotate(n)` followed
by `rotate(-n)` restores the original iteration order. -/
theorem C8_rotate_correct {α : Type} (n : Int) (l : Link α) :
    l.rotate 0 = l ∧
    (l.items = [] → l.rotate n = l) ∧
    (l.items ≠ [] →
      (l.rotate n).items
        = rotateRightSpec ((n % (l.items.length : Int)).toNat) l.items) ∧
    (l.rotate n).rotate (-n) = l := by
  refine ⟨?_, ?_, ?_, ?_⟩
  · rw [Link.rotate_eq]
    simp
  · intro h
    rw [Link.rotate_eq]
    simp [h]
  · intro h
    have hL : 0 < l.items.length := List.length_pos.mpr h
    obtain ⟨hitems, _⟩ := Link.rotate_items_spec l n
    rw [hitems]
    by_cases hz : n % (l.items.length : Int) = 0
    · rw [neg_emod_of_emod_zero _ _ hz, hz]
      simp [rotateRightSpec]
    · have hLpos : (0 : Int) < (l.items.length : Int) := by exact_mod_cast hL
      have hnn : 0 ≤ n % (l.items.length : Int) := Int.emod_nonneg n (ne_of_gt hLpos)
      have hlt : n % (l.items.length : Int) < (l.items.length : Int) :=
        Int.emod_lt_of_pos n hLpos
      rw [neg_emod_of_emod_ne_zero n l.items.length hL hz]
      have ht : ((l.items.length : Int) - n % (l.items.length : Int)).toNat
          = l.items.length - (n % (l.items.length : Int)).toNat := by omega
      rw [ht, rotateRightSpec, List.rotate_eq_drop_append_take (by omega)]
  · by_cases hnil : l.items = []
    · have h2 : l.rotate n = l := by
        rw [Link.rotate_eq]
        simp [hnil]
      rw [h2]
      rw [Link.rotate_eq]
      simp [hnil]
    · have hL : 0 < l.items.length := List.length_pos.mpr hnil
      obtain ⟨hi1, hm1⟩ := Link.rotate_items_spec l n
      obtain ⟨hi2, hm2⟩ := Link.rotate_items_spec (l.rotate n) (-n)
      apply Link.ext
      · rw [hi2, neg_neg, hi1, List.length_rotate, List.rotate_rotate]
        by_cases hz : n % (l.items.length : Int) = 0
        · rw [neg_emod_of_emod_zero _ _ hz, hz]
          simp
        · have hLpos : (0 : Int) < (l.items.length : Int) := by exact_mod_cast hL
          have hnn : 0 ≤ n % (l.items.length : Int) :=
            Int.emod_nonneg n (ne_of_gt hLpos)
          have hlt : n % (l.items.length : Int) < (l.items.length : Int) :=
            Int.emod_lt_of_pos n hLpos
          rw [neg_emod_of_emod_ne_zero n l.items.length hL hz]
          have hsum : (((l.items.length : Int) - n % (l.items.length : Int)).toNat
              + (n % (l.items.length : Int)).toNat) = l.items.length := by omega
          rw [hsum, List.rotate_length]
      · rw [hm2, hm1]

/-- Claim C8 witness: a concrete non-empty container rotated by a concrete
amount, the claim's hypotheses discharged by evaluation. -/
theorem C8_rotate_correct_witness :
    ([1, 2, 3] : List Nat) ≠ [] ∧
    ((⟨[1, 2, 3], Option.none⟩ : Link Nat).rotate 5).items
      = rotateRightSpec (((5 : Int) % (([1, 2, 3] : List Nat).length : Int)).toNat)
          [1, 2, 3] :=
  ⟨by decide, (C8_rotate_correct 5 ⟨[1, 2, 3], Option.none⟩).2.2.1 (by decide)⟩

/-- Claim C10 counterexample: a non-empty container that is at its maximum
length; `insert(0, x)` raises `IndexError` instead of inserting `x` twice and
growing the length by 2, so the claim's universal statement over every
container holding at least one element fails at this input. -/
theorem C10_insert_counterexample :
    Link.insert (⟨[0], some 1⟩ : Link Nat) 0 5
        = .error (.indexError "list has reached its maximum length") ∧
    raisesError (Link.insert (⟨[0], some 1⟩ : Link Nat) 0 5) = true := by
  constructor
  · rfl
  · rfl

/-- Claim C10 as amended: for every container holding at least one element
and not at its optional maximum length, `insert(0, x)` increases the length
by 2 and makes `x` occupy both the first and the second position (the element
is inserted twice), rather than inserting `x` once at the front. -/
theorem C10_insert_front_duplicates {α : Type} (l : Link α) (v : α)
    (h1 : l.items ≠ []) (h2 : l.maxlen ≠ some l.items.length) :
    l.insert 0 v = .ok ⟨v :: v :: l.items, l.maxlen⟩ := by
  have hpos : 0 < l.items.length := List.length_pos.mpr h1
  have hb : -(l.items.length : Int) ≤ (0 : Int) ∧ (0 : Int) < (l.items.length : Int) := by
    constructor
    · omega
    · exact_mod_cast hpos
  rw [Link.insert, if_neg (not_not_intro hb), if_neg h2, if_pos rfl]
  cases hm : l.maxlen with
  | none => simp [Link.appendleft, spliceAfter, hm]
  | some m =>
      have hne : l.items.length ≠ m := by
        intro he
        exact h2 (by rw [hm, he])
      simp [Link.appendleft, spliceAfter, hm, hne]

/-- Claim C10 witness: the amended statement applied to a concrete singleton
container with no maximum length. -/
theorem C10_insert_front_duplicates_witness :
    ([9] : List Nat) ≠ [] ∧ (Option.none : Option Nat) ≠ some 1 ∧
    Link.insert (⟨[9], Option.none⟩ : Link Nat) 0 7
      = .ok ⟨[7, 7, 9], Option.none⟩ :=
  ⟨by decide, by decide,
    C10_insert_front_duplicates (⟨[9], Option.none⟩ : Link Nat) 7 (by decide)
      (by decide)⟩

/-! ## Lemmas about message construction and compaction -/

lemma exc_bind_ok {A B : Type} (a : A) (f : A → Except PyErr B) :
    (Except.ok a >>= f) = f a := rfl

lemma exc_pure {A : Type} (a : A) : (pure a : Except PyErr A) = .ok a := rfl

mutual
theorem messageInit_total (c : Content) : ∃ xs, messageInit c = .ok xs := by
  cases c with
  | pynone => exact ⟨[], rfl⟩
  | seg s => exact ⟨[s], rfl⟩
  | str s => exact ⟨_, rfl⟩
  | unsupported b => exact ⟨[], rfl⟩
  | list xs =>
      by_cases h : xs.isEmpty
      · exact ⟨[], by simp [messageInit, h]⟩
      · obtain ⟨ys, hy⟩ := messageInitList_total xs
        exact ⟨ys, by simp [messageInit, h, hy]⟩

theorem messageInitList_total (cs : List Content) :
    ∃ xs, messageInitList cs = .ok xs := by
  cases cs with
  | nil => exact ⟨[], rfl⟩
  | cons c rest =>
      obtain ⟨h1, e1⟩ := messageInit_total c
      obtain ⟨h2, e2⟩ := messageInitList_total rest
      exact ⟨h1 ++ h2, by simp [messageInitList, e1, e2, exc_bind_ok]⟩
end

lemma messageInit_list_eq (cs : List Content) :
    messageInit (.list cs) = messageInitList cs := by
  cases cs with
  | nil => rfl
  | cons c rest => simp [messageInit]

lemma groupRuns_singletons {α : Type} (key : α → String) (l : List α)
    (h : List.Chain' (fun a b => key a ≠ key b) l) :
    groupRuns key l = l.map (fun a => [a]) := by
  induction l with
  | nil => rfl
  | cons a rest ih =>
      cases rest with
      | nil => rfl
      | cons b rest2 =>
          obtain ⟨hab, hchain⟩ := List.chain'_cons.mp h
          have hfalse : (key a == key b) = false := by
            simp only [beq_eq_false_iff_ne]
            exact hab
          rw [groupRuns, ih hchain]
          simp [hfalse]

lemma intercalate_singleton (sep t : String) :
    String.intercalate sep [t] = t := by
  simp [String.intercalate, String.intercalate.go]

lemma compact_parts (concat : String) (items : List MessageSegment)
    (hwf : ∀ s ∈ items, s.type = "text" → ∃ t, s.data = [("text", Val.str t)]) :
    ((items.map (fun a => [a])).mapM (fun grp =>
      if grp.head?.map (fun s => s.type) = some "text" then do
        let ts ← grp.mapM segText
        pure (Content.seg (MessageSegment.text (String.intercalate concat ts)))
      else
        pure (Content.list (grp.map Content.seg))))
    = Except.ok (items.map (fun s =>
        if s.type = "text" then Content.seg s else Content.list [Content.seg s])) := by
  induction items with
  | nil => rfl
  | cons s rest ih =>
      have hs := hwf s (by simp)
      have hrest : ∀ x ∈ rest, x.type = "text" → ∃ t, x.data = [("text", Val.str t)] :=
        fun x hx => hwf x (by simp [hx])
      simp only [List.map_cons, List.mapM_cons, ih hrest]
      by_cases hst : s.type = "text"
      · obtain ⟨t, hd⟩ := hs hst
        have hstext : s = MessageSegment.text t := by
          cases s
          simp only [MessageSegment.text]
          simp_all
        subst hstext
        simp only [segText, List.mapM_cons, exc_bind_ok, exc_pure,
          intercalate_singleton, MessageSegment.text]
        rfl
      · simp [hst, exc_bind_ok, exc_pure]

lemma init_parts (items : List MessageSegment) :
    messageInit (.list (items.map (fun s =>
        if s.type = "text" then Content.seg s else Content.list [Content.seg s])))
      = .ok items := by
  rw [messageInit_list_eq]
  induction items with
  | nil => rfl
  | cons s rest ih =>
      simp only [List.map_cons, messageInitList, ih]
      by_cases hst : s.type = "text"
      · simp [hst, messageInit, exc_bind_ok, exc_pure]
      · simp [hst, messageInit, messageInitList, exc_bind_ok, exc_pure]

/-- Claim C4 counterexample: constructing a `Message` from a value of an
unsupported type (or from an iterable containing one) silently yields no
segments for it — no branch matches and no `TypeError` is raised — so
construction does not fail with a type error. -/
theorem C4_init_counterexample :
    messageInit (.unsupported true) = .ok [] ∧
    raisesError (messageInit (.unsupported true)) = false ∧
    messageInit (.list [.seg (MessageSegment.text "a"), .unsupported true,
        .seg (MessageSegment.text "b")])
      = .ok [MessageSegment.text "a", MessageSegment.text "b"] :=
  ⟨rfl, rfl, rfl⟩

/-- Claim C4 as amended: construction from heterogeneous input is total and
order-preserving — a non-empty string becomes one text segment, a single
segment a one-element sequence, an iterable the ordered concatenation of the
recursively constructed sequences — but an element of an unsupported type is
silently ignored (contributes no segments) rather than failing with a type
error. -/
theorem C4_init_unsupported_ignored :
    (∀ c : Content, ∃ xs, messageInit c = .ok xs) ∧
    (∀ s : String, s ≠ "" → messageInit (.str s) = .ok [MessageSegment.text s]) ∧
    (∀ sg : MessageSegment, messageInit (.seg sg) = .ok [sg]) ∧
    (∀ (c : Content) (cs : List Content),
      messageInit (.list (c :: cs)) = do
        let h ← messageInit c
        let t ← messageInit (.list cs)
        pure (h ++ t)) ∧
    (∀ b : Bool, messageInit (.unsupported b) = .ok []) := by
  refine ⟨messageInit_total, ?_, fun _ => rfl, ?_, fun _ => rfl⟩
  · intro s hs
    have hne : s.isEmpty = false := by
      cases h : s.isEmpty with
      | false => rfl
      | true => exact absurd ((String.isEmpty_iff s).mp h) hs
    simp [messageInit, hne]
  · intro c cs
    rw [messageInit_list_eq, messageInit_list_eq]
    rfl

/-- Claim C4 witness: the amended statement applied to a concrete non-empty
string. -/
theorem C4_init_unsupported_ignored_witness :
    ("hi" : String) ≠ "" ∧
    messageInit (.str "hi") = .ok [MessageSegment.text "hi"] :=
  ⟨by decide, C4_init_unsupported_ignored.2.1 "hi" (by decide)⟩

/-- Claim C7: `compact` with joiner `""` merges three consecutive text
segments `"a"`, `"b"`, `"c"` into the single text segment `"abc"`; and on a
sequence with no adjacent same-tag runs (text segments being the canonical
ones built by the text constructor) it is a structural no-op. -/
theorem C7_compact_correct :
    messageCompact "" [MessageSegment.text "a", MessageSegment.text "b",
        MessageSegment.text "c"] = .ok [MessageSegment.text "abc"] ∧
    ∀ (concat : String) (items : List MessageSegment),
      List.Chain' (fun a b => a.type ≠ b.type) items →
      (∀ s ∈ items, s.type = "text" → ∃ t, s.data = [("text", Val.str t)]) →
      messageCompact concat items = .ok items := by
  constructor
  · rfl
  · intro concat items hchain hwf
    rw [messageCompact, groupRuns_singletons _ _ hchain]
    rw [compact_parts concat items hwf]
    simpa using init_parts items

/-- Claim C7 witness: the no-op half applied to a concrete sequence with no
adjacent same-tag segments. -/
theorem C7_compact_correct_witness :
    List.Chain' (fun a b : MessageSegment => a.type ≠ b.type)
      [MessageSegment.text "x", ⟨"face", [("id", Val.str "1")]⟩] ∧
    (∀ s ∈ [MessageSegment.text "x",
        (⟨"face", [("id", Val.str "1")]⟩ : MessageSegment)],
      s.type = "text" → ∃ t, s.data = [("text", Val.str t)]) ∧
    messageCompact "," [MessageSegment.text "x", ⟨"face", [("id", Val.str "1")]⟩]
      = .ok [MessageSegment.text "x", ⟨"face", [("id", Val.str "1")]⟩] := by
  have hchain : List.Chain' (fun a b : MessageSegment => a.type ≠ b.type)
      [MessageSegment.text "x", ⟨"face", [("id", Val.str "1")]⟩] :=
    List.chain'_cons.mpr ⟨by decide, List.chain'_singleton _⟩
  have hwf : ∀ s ∈ [MessageSegment.text "x",
      (⟨"face", [("id", Val.str "1")]⟩ : MessageSegment)],
      s.type = "text" → ∃ t, s.data = [("text", Val.str t)] := by
    intro s hs ht
    rcases List.mem_cons.mp hs with rfl | hs2
    · exact ⟨"x", rfl⟩
    · rcases List.mem_cons.mp hs2 with rfl | h3
      · exact absurd ht (by decide)
      · cases h3
  exact ⟨hchain, hwf, C7_compact_correct.2 "," _ hchain hwf⟩

/-- Claim C9: matcher evaluation never raises — every call returns a plain
boolean — and an exception inside a leaf rule makes that leaf evaluate to
false (fail closed) rather than propagating. -/
theorem C9_matcher_fail_closed {Ev : Type} (m : Matcher Ev) (e : Ev)
    (rule : Ev → Except PyErr Bool) (err : PyErr) (h : rule e = .error err) :
    (∃ b, Matcher.call m e = .ok b) ∧
    Matcher.call (.mk rule [] Option.none) e = .ok false := by
  constructor
  · cases m with
    | mk r ms op =>
        simp only [Matcher.call]
        split
        · exact ⟨_, rfl⟩
        · exact ⟨false, rfl⟩
  · simp [Matcher.call, h]

/-- Claim C9 witness: a leaf whose rule raises, evaluated at a concrete
event. -/
theorem C9_matcher_fail_closed_witness :
    (fun _ : Nat => (Except.error (PyErr.valueError "boom") : Except PyErr Bool)) 0
      = .error (.valueError "boom") ∧
    Matcher.call
        (.mk (fun _ : Nat => (.error (.valueError "boom") : Except PyErr Bool)) []
          Option.none) 0
      = .ok false :=
  ⟨rfl,
    (C9_matcher_fail_closed
      (Matcher.mk (fun _ : Nat => (.ok true : Except PyErr Bool)) [] (some "and")) 0
      (fun _ : Nat => (.error (.valueError "boom") : Except PyErr Bool))
      (.valueError "boom") rfl).2⟩

/-- Claim C6: `build_from` is total over payloads carrying the base fields —
for every payload whose category (or category-specific subtype) has no
registered concrete variant it returns the generic event of that level,
retaining timestamp, identity and the discriminators, and does not raise. -/
theorem C6_build_from_total (ctx : Ctx) (t sid pt : Val)
    (ht : getItem ctx "time" = .ok t) (hs : getItem ctx "self_id" = .ok sid)
    (hp : getItem ctx "post_type" = .ok pt) :
    (pt ∉ ([.str "message", .str "notice", .str "request", .str "meta_event"]
        : List Val) →
      Event.build_from ctx = .ok (.generic ctx t sid pt)) ∧
    (∀ mt, pt = .str "message" → getItem ctx "message_type" = .ok mt →
      registryGet messageRegistry mt = Option.none →
      Event.build_from ctx = .ok (.genericMessage ctx t sid pt mt)) ∧
    (∀ nt, pt = .str "notice" → getItem ctx "notice_type" = .ok nt →
      registryGet noticeRegistry nt = Option.none →
      Event.build_from ctx = .ok (.genericNotice ctx t sid nt)) ∧
    (∀ rt, pt = .str "request" → getItem ctx "request_type" = .ok rt →
      registryGet requestRegistry rt = Option.none →
      Event.build_from ctx = .ok (.genericRequest ctx t sid rt)) ∧
    (∀ mt, pt = .str "meta_event" → getItem ctx "meta_event_type" = .ok mt →
      registryGet metaRegistry mt = Option.none →
      Event.build_from ctx = .ok (.genericMeta ctx t sid mt)) := by
  refine ⟨?_, ?_, ?_, ?_, ?_⟩
  · intro hno
    simp only [List.mem_cons, List.mem_singleton, not_or] at hno
    obtain ⟨h1, h2, h3, h4, _⟩ := hno
    simp [Event.build_from, hp, exc_bind_ok, h1, h2, h3, h4, ht, hs]
  · intro mt hpt hmt hreg
    subst hpt
    simp [Event.build_from, hp, exc_bind_ok, MessageEvent.build_from, hmt, hreg,
      ht, hs]
  · intro nt hpt hnt hreg
    subst hpt
    have hne : (Val.str "notice") ≠ (Val.str "message") := by decide
    simp [Event.build_from, hp, exc_bind_ok, NoticeEvent.build_from, hnt, hreg,
      ht, hs, hne]
  · intro rt hpt hrt hreg
    subst hpt
    have hne1 : (Val.str "request") ≠ (Val.str "message") := by decide
    have hne2 : (Val.str "request") ≠ (Val.str "notice") := by decide
    simp [Event.build_from, hp, exc_bind_ok, RequestEvent.build_from, hrt, hreg,
      ht, hs, hne1, hne2]
  · intro mt hpt hmt hreg
    subst hpt
    have hne1 : (Val.str "meta_event") ≠ (Val.str "message") := by decide
    have hne2 : (Val.str "meta_event") ≠ (Val.str "notice") := by decide
    have hne3 : (Val.str "meta_event") ≠ (Val.str "request") := by decide
    simp [Event.build_from, hp, exc_bind_ok, MetaEvent.build_from, hmt, hreg,
      ht, hs, hne1, hne2, hne3]

/-- Claim C6 witness: a payload with base fields and an unrecognized category
degrades to the generic event. -/
theorem C6_build_from_total_witness :
    getItem [("time", Val.int 1), ("self_id", Val.int 2),
        ("post_type", Val.str "wild")] "time" = .ok (.int 1) ∧
    (Val.str "wild") ∉ ([.str "message", .str "notice", .str "request",
        .str "meta_event"] : List Val) ∧
    Event.build_from [("time", Val.int 1), ("self_id", Val.int 2),
        ("post_type", Val.str "wild")]
      = .ok (.generic [("time", Val.int 1), ("self_id", Val.int 2),
          ("post_type", Val.str "wild")] (.int 1) (.int 2) (.str "wild")) :=
  ⟨rfl, by decide,
    (C6_build_from_total [("time", Val.int 1), ("self_id", Val.int 2),
        ("post_type", Val.str "wild")] (.int 1) (.int 2) (.str "wild")
      rfl rfl rfl).1 (by decide)⟩

/-! ## Lemmas about the pending-call registry -/

lemma lookupFut_cons_eq (a : Int × FutureState) (l : Registry) (t : Int) :
    lookupFut (a :: l) t = if a.1 == t then some a.2 else lookupFut l t := by
  by_cases h : (a.1 == t)
  · simp [lookupFut, List.find?_cons, h]
  · simp [lookupFut, List.find?_cons, h]

lemma lookupFut_append_of_none (l1 l2 : Registry) (t : Int)
    (h : lookupFut l1 t = Option.none) :
    lookupFut (l1 ++ l2) t = lookupFut l2 t := by
  induction l1 with
  | nil => rfl
  | cons a l1 ih =>
      rw [lookupFut_cons_eq] at h
      rw [List.cons_append, lookupFut_cons_eq]
      by_cases ha : (a.1 == t)
      · simp [ha] at h
      · simp only [ha, if_false, ite_false] at h ⊢
        exact ih h

lemma lookupFut_append_of_some (l1 l2 : Registry) (t : Int) (s : FutureState)
    (h : lookupFut l1 t = some s) :
    lookupFut (l1 ++ l2) t = some s := by
  induction l1 with
  | nil => simp [lookupFut] at h
  | cons a l1 ih =>
      rw [lookupFut_cons_eq] at h
      rw [List.cons_append, lookupFut_cons_eq]
      by_cases ha : (a.1 == t)
      · simpa [ha] using h
      · simp only [ha, if_false, ite_false] at h ⊢
        exact ih h

lemma setFut_cons (a : Int × FutureState) (l : Registry) (t : Int)
    (s : FutureState) :
    setFut (a :: l) t s = (if a.1 == t then (a.1, s) else a) :: setFut l t s :=
  rfl

lemma lookupFut_setFut_ne (l : Registry) (t t2 : Int) (s : FutureState)
    (h : t2 ≠ t) :
    lookupFut (setFut l t s) t2 = lookupFut l t2 := by
  induction l with
  | nil => rfl
  | cons a l ih =>
      rw [setFut_cons]
      by_cases hb : a.1 = t
      · have hb2 : (a.1 == t2) = false := by
          simp only [beq_eq_false_iff_ne]
          rw [hb]
          exact Ne.symm h
        simp [lookupFut_cons_eq, hb, hb2, Ne.symm h, ih]
      · simp [lookupFut_cons_eq, hb, ih]

lemma lookupFut_setFut_eq (l : Registry) (t : Int) (s : FutureState)
    (h : lookupFut l t ≠ Option.none) :
    lookupFut (setFut l t s) t = some s := by
  induction l with
  | nil => exact absurd rfl h
  | cons a l ih =>
      rw [lookupFut_cons_eq] at h
      rw [setFut_cons, lookupFut_cons_eq]
      by_cases hb : a.1 = t
      · simp [hb]
      · have hb2 : (a.1 == t) = false := by simp [hb]
        rw [hb2] at h
        simp only [hb2, if_false, ite_false] at h ⊢
        simp [hb2]
        exact ih (by simpa using h)

lemma lookupFut_eraseFut_self (l : Registry) (t : Int) :
    lookupFut (eraseFut l t) t = Option.none := by
  induction l with
  | nil => rfl
  | cons a l ih =>
      simp only [eraseFut, List.filter_cons]
      by_cases ha : (a.1 == t)
      · have : (a.1 != t) = false := by simp [bne]; simpa using ha
        simp only [this, if_false, ite_false]
        exact ih
      · have : (a.1 != t) = true := by simp [bne]; simpa using ha
        simp only [this, if_true, ite_true]
        rw [lookupFut_cons_eq]
        simp only [ha, if_false, ite_false]
        exact ih

lemma lookupFut_eraseFut_ne (l : Registry) (t t2 : Int) (h : t2 ≠ t) :
    lookupFut (eraseFut l t) t2 = lookupFut l t2 := by
  induction l with
  | nil => rfl
  | cons a l ih =>
      simp only [eraseFut, List.filter_cons]
      by_cases ha : (a.1 != t)
      · simp only [ha, if_true, ite_true]
        rw [lookupFut_cons_eq, lookupFut_cons_eq]
        by_cases ha2 : (a.1 == t2)
        · simp [ha2]
        · simp only [ha2, if_false, ite_false]
          exact ih
      · have hat : a.1 = t := by
          simp [bne] at ha
          simpa using ha
        simp only [ha, if_false, ite_false]
        rw [lookupFut_cons_eq]
        have : (a.1 == t2) = false := by
          simp [hat]
          exact fun he => h he.symm
        simp only [this, if_false, ite_false]
        exact ih

lemma eraseFut_append (l1 l2 : Registry) (t : Int) :
    eraseFut (l1 ++ l2) t = eraseFut l1 t ++ eraseFut l2 t := by
  simp [eraseFut, List.filter_append]

lemma eraseFut_single (t : Int) (s : FutureState) : eraseFut [(t, s)] t = [] := by
  simp [eraseFut]

lemma eraseFut_of_fresh (l : Registry) (t : Int)
    (h : lookupFut l t = Option.none) : eraseFut l t = l := by
  induction l with
  | nil => rfl
  | cons a l ih =>
      rw [lookupFut_cons_eq] at h
      by_cases ha : (a.1 == t)
      · simp [ha] at h
      · simp only [ha, if_false, ite_false] at h
        have hne : (a.1 != t) = true := by simp [bne]; simpa using ha
        simp only [eraseFut, List.filter_cons, hne, if_true, ite_true]
        rw [show List.filter (fun p => p.1 != t) l = eraseFut l t from rfl, ih h]

lemma do_run_not_connected (connectors : List Int) (futures : Registry)
    (i : Int) (token : Int) (outcome : AwaitOutcome) (hi : i ≠ 0)
    (hm : i ∉ connectors) :
    FastBot.do_run connectors futures (some i) token outcome
      = (.ret .none, eraseFut (futures ++ [(token, .pending)]) token) := by
  simp [FastBot.do_run, hi, hm]

lemma do_run_connected (connectors : List Int) (futures : Registry)
    (i : Int) (token : Int) (outcome : AwaitOutcome) (hi : i ≠ 0)
    (hm : i ∈ connectors) :
    FastBot.do_run connectors futures (some i) token outcome
      = (outcomeResult outcome,
        eraseFut (futures ++ [(token, .pending)]) token) := by
  cases outcome <;> simp [FastBot.do_run, outcomeResult, hi, hm]

/-- Claim C1 counterexample: with no connection registered for identity 42,
`do` returns a plain `None` — the send's `KeyError` is caught and logged —
instead of failing with a "not connected" error; and a response frame with a
failure status resolves the pending future exceptionally, yet the awaiting
`do` catches that exception too and returns `None`, so the caller does not
observe an error. -/
theorem C1_do_counterexample :
    FastBot.do_run [] [] (some 42) 1 .exn = (.ret .none, []) ∧
    raisesDo (FastBot.do_run [] [] (some 42) 1 .exn).1 = false ∧
    event_handler [(7, FutureState.pending)]
        [("status", Val.str "failed"), ("echo", Val.int 7)]
      = ([(7, FutureState.doneErr
            [("status", Val.str "failed"), ("echo", Val.int 7)])],
          .resolvedErr 7) ∧
    awaitResult (FutureState.doneErr
        [("status", Val.str "failed"), ("echo", Val.int 7)]) = some .exn ∧
    FastBot.do_run [5] [] (some 5) 7 .exn = (.ret .none, []) ∧
    raisesDo (FastBot.do_run [5] [] (some 5) 7 .exn).1 = false := by
  refine ⟨by decide, by decide, by decide, by decide, by decide, by decide⟩

/-- Claim C1 as amended: `do` never surfaces RPC failures to its caller —
an unknown identity's send `KeyError` and a failure-status response's
exception are both caught, logged, and turned into a returned `None`; a
normally resolved call returns the response data; the only raise is the
`RuntimeError` for an unspecified `self_id` when the connection count differs
from one, issued before any send. -/
theorem C1_do_swallows_errors (connectors : List Int) (futures : Registry)
    (i : Int) (token : Int) (outcome : AwaitOutcome) (hi : i ≠ 0) :
    (i ∉ connectors →
      FastBot.do_run connectors futures (some i) token outcome
        = (.ret .none, eraseFut (futures ++ [(token, .pending)]) token)) ∧
    (i ∈ connectors → outcome = .exn →
      FastBot.do_run connectors futures (some i) token outcome
        = (.ret .none, eraseFut (futures ++ [(token, .pending)]) token)) ∧
    (∀ v, i ∈ connectors → outcome = .result v →
      (FastBot.do_run connectors futures (some i) token outcome).1 = .ret v) ∧
    (connectors = [] →
      FastBot.do_run connectors futures Option.none token outcome
        = (.raised (.runtimeError "Parameter `self_id` must be specified"),
            futures)) := by
  refine ⟨?_, ?_, ?_, ?_⟩
  · intro hm
    exact do_run_not_connected connectors futures i token outcome hi hm
  · intro hm ho
    subst ho
    exact do_run_connected connectors futures i token .exn hi hm
  · intro v hm ho
    subst ho
    rw [do_run_connected connectors futures i token (.result v) hi hm]
    rfl
  · intro hc
    subst hc
    rfl

/-- Claim C1 amended witness: a failure outcome on a live connection returns
`None` to the caller. -/
theorem C1_do_swallows_errors_witness :
    (5 : Int) ≠ 0 ∧ (5 : Int) ∈ [(5 : Int)] ∧
    FastBot.do_run [5] [] (some 5) 7 .exn
      = (.ret .none, eraseFut ([] ++ [(7, .pending)]) 7) :=
  ⟨by decide, by decide,
    (C1_do_swallows_errors [5] [] 5 7 .exn (by decide)).2.1 (by decide) rfl⟩

/-- Claim C2 counterexample: a frame that carries a correlation token
matching a pending call but also a `post_type` field is handed to the plugin
pipeline, not treated as a response; and a frame with no `post_type` and no
matching pending token is neither resolved nor handed to the pipeline — its
`KeyError` is logged and the frame dropped. -/
theorem C2_classification_counterexample :
    getItem [("post_type", Val.str "message"), ("echo", Val.int 1),
        ("status", Val.str "ok")] "echo" = .ok (.int 1) ∧
    lookupFut [((1 : Int), FutureState.pending)] 1 = some .pending ∧
    event_handler [((1 : Int), FutureState.pending)]
        [("post_type", Val.str "message"), ("echo", Val.int 1),
          ("status", Val.str "ok")]
      = ([((1 : Int), FutureState.pending)], .dispatched) ∧
    event_handler [] [("status", Val.str "ok"), ("echo", Val.int 5)]
      = ([], .logged (.keyError "5")) := by
  refine ⟨by decide, by decide, by decide, by decide⟩

/-- Claim C2 as amended: a frame is classified as an event and handed to the
plugin pipeline iff it contains the `post_type` key; any other frame is
treated as a response — its `status` and `echo` are read, a matching pending
call is resolved (normally for status ok, exceptionally otherwise), and a
missing key or unmatched token raises a `KeyError` that is caught and logged
rather than the frame being handed to the pipeline. -/
theorem C2_event_iff_post_type (futures : Registry) (ctx : Ctx) :
    (containsKey ctx "post_type" = true ↔
      (event_handler futures ctx).2 = .dispatched) ∧
    (containsKey ctx "post_type" = true →
      event_handler futures ctx = (futures, .dispatched)) ∧
    (containsKey ctx "post_type" = false →
      ∀ tok v, getItem ctx "status" = .ok v → getItem ctx "echo" = .ok (.int tok) →
        lookupFut futures tok = some .pending →
        event_handler futures ctx =
          (if v = .str "ok" then
            (setFut futures tok (.doneOk (getDefault ctx "data")),
              .resolvedOk tok)
          else (setFut futures tok (.doneErr ctx), .resolvedErr tok))) := by
  refine ⟨?_, ?_, ?_⟩
  · by_cases hpt : containsKey ctx "post_type"
    · simp [event_handler, hpt]
    · have hact : (event_handler futures ctx).2 ≠ HAction.dispatched := by
        rw [event_handler, if_neg (by simpa using hpt)]
        repeat' split
        all_goals simp
      constructor
      · intro h
        exact absurd h hpt
      · intro h
        exact absurd h hact
  · intro hpt
    simp [event_handler, hpt]
  · intro hpt tok v hstat hecho hpend
    rw [event_handler, if_neg (by simp [hpt]), hstat, hecho]
    simp only [hpend]

/-- Claim C2 amended witness: a frame containing `post_type` is dispatched to
the pipeline. -/
theorem C2_event_iff_post_type_witness :
    containsKey [("post_type", Val.str "x")] "post_type" = true ∧
    event_handler [] [("post_type", Val.str "x")] = ([], .dispatched) :=
  ⟨by decide,
    (C2_event_iff_post_type [] [("post_type", Val.str "x")]).2.1 (by decide)⟩

/-- Claim C5: the pending-call token is removed from the registry
unconditionally on the awaiting caller's exit path — normal resolution,
failure resolution, or cancellation, and also when the send itself fails —
and two calls pending concurrently hold distinct tokens whose resolutions are
independent: resolving one leaves the other pending, and after the first
call's cleanup its token is absent while the other's entry is untouched. -/
theorem C5_token_lifecycle (connectors : List Int) (futures : Registry)
    (i t1 t2 : Int) (outcome : AwaitOutcome) (v : Val) (hi : i ≠ 0)
    (h1 : lookupFut futures t1 = Option.none)
    (h2 : lookupFut (futures ++ [(t1, .pending)]) t2 = Option.none) :
    t1 ≠ t2 ∧
    lookupFut (FastBot.do_run connectors futures (some i) t1 outcome).2 t1
      = Option.none ∧
    (FastBot.do_run connectors futures (some i) t1 outcome).2 = futures ∧
    (lookupFut ((event_handler ((futures ++ [(t1, .pending)]) ++ [(t2, .pending)])
        [("status", .str "ok"), ("echo", .int t1), ("data", v)]).1) t1
      = some (.doneOk v) ∧
     lookupFut ((event_handler ((futures ++ [(t1, .pending)]) ++ [(t2, .pending)])
        [("status", .str "ok"), ("echo", .int t1), ("data", v)]).1) t2
      = some .pending ∧
     lookupFut (eraseFut ((event_handler
          ((futures ++ [(t1, .pending)]) ++ [(t2, .pending)])
          [("status", .str "ok"), ("echo", .int t1), ("data", v)]).1) t1) t1
      = Option.none ∧
     lookupFut (eraseFut ((event_handler
          ((futures ++ [(t1, .pending)]) ++ [(t2, .pending)])
          [("status", .str "ok"), ("echo", .int t1), ("data", v)]).1) t1) t2
      = some .pending) := by
  have hl1 : lookupFut (futures ++ [(t1, .pending)]) t1 = some .pending := by
    rw [lookupFut_append_of_none _ _ _ h1, lookupFut_cons_eq]
    simp
  have hne : t1 ≠ t2 := by
    intro he
    subst he
    rw [hl1] at h2
    exact Option.noConfusion h2
  have herase : (FastBot.do_run connectors futures (some i) t1 outcome).2
      = futures := by
    have hstep : eraseFut (futures ++ [(t1, FutureState.pending)]) t1 = futures := by
      rw [eraseFut_append, eraseFut_single, eraseFut_of_fresh _ _ h1,
        List.append_nil]
    by_cases hm : i ∈ connectors
    · rw [do_run_connected connectors futures i t1 outcome hi hm]
      simp [hstep]
    · rw [do_run_not_connected connectors futures i t1 outcome hi hm]
      simp [hstep]
  have hf2a : lookupFut ((futures ++ [(t1, .pending)]) ++ [(t2, .pending)]) t1
      = some .pending := lookupFut_append_of_some _ _ _ _ hl1
  have hck : containsKey [("status", Val.str "ok"), ("echo", Val.int t1),
      ("data", v)] "post_type" = false := rfl
  have hresolved : (event_handler ((futures ++ [(t1, .pending)]) ++ [(t2, .pending)])
        [("status", .str "ok"), ("echo", .int t1), ("data", v)])
      = (setFut ((futures ++ [(t1, .pending)]) ++ [(t2, .pending)]) t1
          (.doneOk v), .resolvedOk t1) := by
    rw [event_handler, if_neg (by rw [hck]; exact Bool.false_ne_true)]
    simp only [show getItem [("status", Val.str "ok"), ("echo", Val.int t1),
        ("data", v)] "status" = .ok (.str "ok") from rfl,
      show getItem [("status", Val.str "ok"), ("echo", Val.int t1),
        ("data", v)] "echo" = .ok (.int t1) from rfl, hf2a]
    simp [show getDefault [("status", Val.str "ok"), ("echo", Val.int t1),
      ("data", v)] "data" = v from rfl]
  have hf2b : lookupFut ((futures ++ [(t1, .pending)]) ++ [(t2, .pending)]) t2
      = some .pending := by
    rw [lookupFut_append_of_none _ _ _ h2, lookupFut_cons_eq]
    simp
  refine ⟨hne, by rw [herase]; exact h1, herase, ?_, ?_, ?_, ?_⟩
  · rw [hresolved]
    exact lookupFut_setFut_eq _ _ _ (by rw [hf2a]; exact fun h => Option.noConfusion h)
  · rw [hresolved]
    rw [lookupFut_setFut_ne _ _ _ _ (Ne.symm hne)]
    exact hf2b
  · rw [hresolved]
    exact lookupFut_eraseFut_self _ _
  · rw [hresolved]
    rw [lookupFut_eraseFut_ne _ _ _ (Ne.symm hne),
      lookupFut_setFut_ne _ _ _ _ (Ne.symm hne)]
    exact hf2b

/-- Claim C5 witness: two concrete concurrent calls with tokens 10 and 11 on
identity 5. -/
theorem C5_token_lifecycle_witness :
    (5 : Int) ≠ 0 ∧
    lookupFut [] 10 = Option.none ∧
    lookupFut ([] ++ [((10 : Int), FutureState.pending)]) 11 = Option.none ∧
    (10 : Int) ≠ 11 ∧
    (FastBot.do_run [5] [] (some 5) 10 (.result (.int 3))).2 = [] :=
  ⟨by decide, by decide, by decide,
    (C5_token_lifecycle [5] [] 5 10 11 (.result (.int 3)) (.int 3) (by decide)
      (by decide) (by decide)).1,
    (C5_token_lifecycle [5] [] 5 10 11 (.result (.int 3)) (.int 3) (by decide)
      (by decide) (by decide)).2.2.1⟩

/-! ## Lemmas about the middleware loops -/

lemma runMiddlewares_cons_stop (i : Nat) (f : Ctx → Ctx)
    (rest : List (Nat × (Ctx → Ctx))) (ctx : Ctx)
    (h : (f ctx).isEmpty = true) :
    runMiddlewares ((i, f) :: rest) ctx = (f ctx, [i], true) := by
  simp [runMiddlewares, h]

lemma runMiddlewares_append (pre rest : List (Nat × (Ctx → Ctx))) (ctx c1 : Ctx)
    (ran1 : List Nat) (h : runMiddlewares pre ctx = (c1, ran1, false)) :
    runMiddlewares (pre ++ rest) ctx =
      ((runMiddlewares rest c1).1, ran1 ++ (runMiddlewares rest c1).2.1,
        (runMiddlewares rest c1).2.2) := by
  induction pre generalizing ctx ran1 with
  | nil =>
      simp only [runMiddlewares, Prod.mk.injEq] at h
      obtain ⟨h1, h2, _⟩ := h
      subst h1
      subst h2
      simp
  | cons p pre ih =>
      obtain ⟨j, g⟩ := p
      by_cases hemp : (g ctx).isEmpty
      · rw [runMiddlewares_cons_stop j g pre ctx hemp] at h
        simp at h
      · rw [List.cons_append, runMiddlewares]
        rw [runMiddlewares] at h
        simp only [hemp, Bool.false_eq_true, if_false, ite_false] at h ⊢
        rcases hrm : runMiddlewares pre (g ctx) with ⟨c2, ran2, st2⟩
        rw [hrm] at h
        simp only [Prod.mk.injEq] at h
        obtain ⟨hc, hr, hs⟩ := h
        subst hc
        subst hs
        rw [ih (g ctx) ran2 hrm]
        simp [← hr]

/-- Claim C3 counterexample (the `src/fastbot` `event_hook` variant): the
first middleware clears the payload, yet the second middleware still runs —
it observes and replaces the emptied payload — and event construction is
still attempted, failing with a `KeyError` instead of dispatch stopping
immediately after the payload became falsy. -/
theorem C3_middleware_counterexample :
    ([((0 : Nat), fun _ => ([] : Ctx)),
        (1, fun _ => [("mw1", Val.str "ran")])].foldl
      (fun c p => p.2 c) [("post_type", Val.str "x")])
      = [("mw1", Val.str "ran")] ∧
    eventHookRun [((0 : Nat), fun _ => ([] : Ctx)),
        (1, fun _ => [("mw1", Val.str "ran")])] [("post_type", Val.str "x")]
      = ([0, 1], some (Event.build_from [("mw1", Val.str "ran")])) ∧
    Event.build_from [("mw1", Val.str "ran")]
      = .error (.keyError "post_type") :=
  ⟨rfl, rfl, rfl⟩

/-- Claim C3 as amended: in the `PluginManager.run` variant, a payload that
becomes empty/falsy after some middleware stops dispatch immediately — the
remaining middleware are skipped, no event is built and no handlers run; in
the `event_hook` variant there is no such check: every preprocessor runs and
event construction is always attempted on whatever payload remains. -/
theorem C3_falsy_payload_shortcircuit :
    (∀ (pre : List (Nat × (Ctx → Ctx))) (i : Nat) (f : Ctx → Ctx)
        (rest : List (Nat × (Ctx → Ctx))) (ctx c1 : Ctx) (ran1 : List Nat),
      runMiddlewares pre ctx = (c1, ran1, false) → (f c1).isEmpty = true →
      pmRun (pre ++ (i, f) :: rest) ctx = (ran1 ++ [i], Option.none)) ∧
    (∀ (pre : List (Nat × (Ctx → Ctx))) (ctx : Ctx),
      eventHookRun pre ctx
        = (pre.map (fun p => p.1),
            some (Event.build_from (pre.foldl (fun c p => p.2 c) ctx)))) := by
  constructor
  · intro pre i f rest ctx c1 ran1 h hemp
    rw [pmRun, runMiddlewares_append pre ((i, f) :: rest) ctx c1 ran1 h,
      runMiddlewares_cons_stop i f rest c1 hemp]
    rfl
  · intro pre ctx
    rfl

/-- Claim C3 amended witness: a concrete two-middleware chain whose first
middleware clears the payload; the `PluginManager.run` variant stops after
it. -/
theorem C3_falsy_payload_shortcircuit_witness :
    runMiddlewares [] [("a", Val.int 1)] = ([("a", Val.int 1)], [], false) ∧
    (((fun _ => ([] : Ctx)) [("a", Val.int 1)]).isEmpty = true) ∧
    pmRun ([] ++ ((0 : Nat), fun _ => ([] : Ctx)) :: [(1, fun c => c)])
        [("a", Val.int 1)]
      = ([] ++ [0], Option.none) :=
  ⟨rfl, rfl,
    C3_falsy_payload_shortcircuit.1 [] 0 (fun _ => ([] : Ctx))
      [(1, fun c => c)] [("a", Val.int 1)] [("a", Val.int 1)] [] rfl rfl⟩

end Fastbot
